import Mathlib

/-!
# Verification of the hotel-point-app booking core

Shallow embedding of the points-based hotel booking backend
(`hotel-point-app`, Go/MongoDB).  Time instants are modelled as natural
numbers counting minutes since a reference Monday 00:00; a calendar day is
`t / 1440`, and weekday `(t / 1440) % 7` with `5 = Saturday`, `6 = Sunday`.
Mongo documents become Lean lists, `primitive.ObjectID` becomes `Nat`
(fresh ids drawn from a counter in the state), Go `int` becomes `Int`,
and each repository/service method becomes a pure function threading the
database state explicitly.
-/

deriving instance DecidableEq for Except

namespace HotelApp

/-- Object ids (`primitive.ObjectID`). -/
abbrev ObjectId := Nat

/-- Minutes per day. -/
def minutesPerDay : Nat := 1440

/-- Calendar day number of an instant. -/
def dayOf (t : Nat) : Nat := t / minutesPerDay

/-- Midnight of the instant's calendar day
(`time.Date(y, m, d, 0, 0, 0, 0, loc)`). -/
def startOfDay (t : Nat) : Nat := (t / minutesPerDay) * minutesPerDay

/-- Last representable moment of the instant's calendar day
(`time.Date(y, m, d, 23, 59, 59, 999999999, loc)`), at minute granularity. -/
def endOfDay (t : Nat) : Nat := (t / minutesPerDay) * minutesPerDay + 1439

/-- `d.Weekday() == time.Saturday || d.Weekday() == time.Sunday`,
with day 0 a Monday. -/
def isWeekend (t : Nat) : Bool :=
  (t / minutesPerDay) % 7 == 5 || (t / minutesPerDay) % 7 == 6

/-- `isSameDay` from `booking_service.go`: equal calendar day. -/
def isSameDay (t1 t2 : Nat) : Bool := dayOf t1 == dayOf t2

/-- `models.User` (fields relevant to the booking core). -/
structure User where
  id : ObjectId
  pointBalance : Int
  role : String
  deriving Repr, DecidableEq

/-- `models.Room`. -/
structure Room where
  id : ObjectId
  hotelId : ObjectId
  deriving Repr, DecidableEq

/-- `models.Booking`. -/
structure Booking where
  id : ObjectId
  userId : ObjectId
  hotelId : ObjectId
  roomId : ObjectId
  checkIn : Nat
  checkOut : Nat
  pointCost : Int
  status : String
  deriving Repr, DecidableEq

/-- `models.DateRule`. -/
structure DateRule where
  id : ObjectId
  date : Nat
  type : String
  pointCost : Int
  name : String
  deriving Repr, DecidableEq

/-- `models.RoomAvailability`. -/
structure RoomAvailability where
  id : ObjectId
  roomId : ObjectId
  date : Nat
  available : Bool
  userIds : List ObjectId
  deriving Repr, DecidableEq

/-- `models.PointTransaction`; the `Reference` string `booking.ID.Hex()` is
modelled by the referenced object id itself (`Hex` is injective). -/
structure PointTransaction where
  id : ObjectId
  userId : ObjectId
  amount : Int
  type : String
  reference : ObjectId
  deriving Repr, DecidableEq

/-- The MongoDB database state: one list per collection, plus a counter
supplying the fresh ids produced by `primitive.NewObjectID()`. -/
structure DB where
  users : List User
  hotels : List ObjectId
  rooms : List Room
  bookings : List Booking
  dateRules : List DateRule
  roomAvail : List RoomAvailability
  transactions : List PointTransaction
  nextId : ObjectId
  deriving Repr, DecidableEq

/-! ## Repository layer -/

/-- `userRepository.FindByID`. -/
def findUser (db : DB) (id : ObjectId) : Option User :=
  db.users.find? (fun u => u.id == id)

/-- `hotelRepository.FindByID` (existence is all the core uses). -/
def findHotel (db : DB) (id : ObjectId) : Option ObjectId :=
  db.hotels.find? (fun h => h == id)

/-- `hotelRepository.FindRoomByID`. -/
def findRoom (db : DB) (id : ObjectId) : Option Room :=
  db.rooms.find? (fun r => r.id == id)

/-- `bookingRepository.FindByID`. -/
def findBooking (db : DB) (id : ObjectId) : Option Booking :=
  db.bookings.find? (fun b => b.id == id)

/-- The Mongo filter of `bookingRepository.CheckRoomAvailability`:
same room, status not cancelled, `check_in < checkOut` and
`check_out > checkIn` (strict half-open overlap on instants). -/
def overlapsQuery (roomId : ObjectId) (checkIn checkOut : Nat) (b : Booking) : Bool :=
  b.roomId == roomId && b.status != "cancelled" &&
    decide (b.checkIn < checkOut) && decide (b.checkOut > checkIn)

/-- `bookingRepository.CheckRoomAvailability`: the room is available iff
`CountDocuments` of the overlap filter is zero. -/
def checkRoomAvailability (db : DB) (roomId : ObjectId) (checkIn checkOut : Nat) : Bool :=
  db.bookings.countP (overlapsQuery roomId checkIn checkOut) == 0

/-- `userRepository.UpdatePointBalance`: `$inc` of `point_balance` on the
matching user document. -/
def updatePointBalance (db : DB) (userId : ObjectId) (points : Int) : DB :=
  { db with users := db.users.map (fun u =>
      if u.id == userId then { u with pointBalance := u.pointBalance + points } else u) }

/-- `userRepository.CreatePointTransaction`: insert into
`point_transactions`. -/
def createPointTransaction (db : DB) (t : PointTransaction) : DB :=
  { db with transactions := db.transactions ++ [t] }

/-- `bookingRepository.Create` as invoked by the service (id, status and
timestamps already set by the caller): insert into `bookings`. -/
def insertBooking (db : DB) (b : Booking) : DB :=
  { db with bookings := db.bookings ++ [b] }

/-- `bookingRepository.UpdateStatus`: rejects a status outside the four
enum values, else `$set`s the status of every document with the id. -/
def updateStatus (bookings : List Booking) (id : ObjectId) (status : String) :
    Except String (List Booking) :=
  if status != "pending" && status != "confirmed" &&
      status != "completed" && status != "cancelled" then
    .error "invalid booking status"
  else
    .ok (bookings.map (fun b => if b.id == id then { b with status := status } else b))

/-- The Mongo filter of `dateRepository.GetPointCostForDate`: a rule whose
`date` lies in `[startOfDay, endOfDay]` of the given instant. -/
def ruleWindowMatch (date : Nat) (r : DateRule) : Bool :=
  decide (startOfDay date ≤ r.date) && decide (r.date ≤ endOfDay date)

/-- `dateRepository.GetPointCostForDate`: a matching rule's cost wins, else
2 on Saturday/Sunday, else 1. -/
def getPointCostForDate (rules : List DateRule) (date : Nat) : Int :=
  match rules.find? (ruleWindowMatch date) with
  | some rule => rule.pointCost
  | none => if isWeekend date then 2 else 1

/-- `dateRepository.FindDateRules`: rules with `date` in
`[startOfDay start, endOfDay end]`. -/
def findDateRules (rules : List DateRule) (startDate endDate : Nat) : List DateRule :=
  rules.filter (fun r =>
    decide (startOfDay startDate ≤ r.date) && decide (r.date ≤ endOfDay endDate))

/-- `dateRepository.CreateDateRule`: insert. -/
def createDateRule (rules : List DateRule) (rule : DateRule) : List DateRule :=
  rules ++ [rule]

/-- `dateRepository.UpdateDateRule`: `$set` `type`, `point_cost`, `name`
on the document with the rule's id (the date field is not written). -/
def updateDateRule (rules : List DateRule) (rule : DateRule) : List DateRule :=
  rules.map (fun r =>
    if r.id == rule.id then
      { r with type := rule.type, pointCost := rule.pointCost, name := rule.name }
    else r)

/-- `hotelRepository.FindRoomAvailabilityByDateRange`: availability records
of the room with `date` in `[startOfDay from, endOfDay to]`. -/
def findRoomAvailabilityByDateRange (db : DB) (roomId : ObjectId)
    (fromDate toDate : Nat) : List RoomAvailability :=
  db.roomAvail.filter (fun a =>
    a.roomId == roomId && decide (startOfDay fromDate ≤ a.date) &&
      decide (a.date ≤ endOfDay toDate))

/-! ## Date service -/

/-- `dateService.GetPointCostForDate` (delegates to the repository). -/
def servicePointCostForDate (db : DB) (date : Nat) : Int :=
  getPointCostForDate db.dateRules date

/-- `dateService.SetSpecialDate`: validates the rule, normalizes the date
to midnight, generates an id if absent, then updates the first existing
same-day rule (reusing its id) or inserts a new rule. -/
def setSpecialDate (db : DB) (rule : DateRule) : Except String Unit × DB :=
  if rule.date == 0 || rule.type == "" || decide (rule.pointCost ≤ 0) ||
      decide (rule.pointCost > 3) then
    (.error "invalid date rule data", db)
  else
    let rule1 : DateRule := { rule with date := startOfDay rule.date }
    let fresh : Bool := rule1.id == 0
    let rule2 : DateRule := if fresh then { rule1 with id := db.nextId } else rule1
    let db0 : DB := if fresh then { db with nextId := db.nextId + 1 } else db
    match findDateRules db0.dateRules rule2.date (endOfDay rule2.date) with
    | [] => (.ok (), { db0 with dateRules := createDateRule db0.dateRules rule2 })
    | e :: _ =>
        (.ok (), { db0 with dateRules := updateDateRule db0.dateRules { rule2 with id := e.id } })

/-! ## Booking service -/

/-- The per-day summation loop of `bookingService.CalculatePointCost`
(`for d := startDate; d.Before(endDate); d = d.AddDate(0, 0, 1)`), as a
recursion on the number of remaining iterations. -/
def calcLoop (rules : List DateRule) (d : Nat) : Nat → Int
  | 0 => 0
  | n + 1 => getPointCostForDate rules d + calcLoop rules (d + minutesPerDay) n

/-- `bookingService.CalculatePointCost`: normalizes both instants to
midnight, rejects check-in after check-out, rejects a check-in earlier
than `now` minus one day, requires the room to exist and the overlap
check to pass, then sums the per-day costs over the half-open range. -/
def calculatePointCost (db : DB) (now : Nat) (roomId : ObjectId)
    (checkIn checkOut : Nat) : Except String Int :=
  let startDate := startOfDay checkIn
  let endDate := startOfDay checkOut
  if startDate > endDate then
    .error "check-in date cannot be after check-out date"
  else if (startDate : Int) < (now : Int) - (minutesPerDay : Int) then
    .error "check-in date cannot be in the past"
  else
    match findRoom db roomId with
    | none => .error "room not found"
    | some _ =>
      if checkRoomAvailability db roomId startDate endDate then
        .ok (calcLoop db.dateRules startDate (dayOf checkOut - dayOf checkIn))
      else
        .error "room is not available for the selected dates"

/-- `bookingService.CreateBooking`: normalizes check-in to 14:00 and
check-out to 12:00, validates user/hotel/room and room-hotel membership,
re-derives the cost, checks the balance, persists the booking with status
`confirmed`, debits the ledger and appends a `booking_deduction`
transaction. -/
def createBooking (db : DB) (now : Nat) (userId hotelId roomId : ObjectId)
    (checkIn checkOut : Nat) : Except String Booking × DB :=
  let startDate := startOfDay checkIn + 840
  let endDate := startOfDay checkOut + 720
  match findUser db userId with
  | none => (.error "user not found", db)
  | some user =>
    match findHotel db hotelId with
    | none => (.error "hotel not found", db)
    | some _ =>
      match findRoom db roomId with
      | none => (.error "room not found", db)
      | some room =>
        if room.hotelId != hotelId then
          (.error "room does not belong to the specified hotel", db)
        else
          match calculatePointCost db now roomId startDate endDate with
          | .error e => (.error e, db)
          | .ok pointCost =>
            if user.pointBalance < pointCost then
              (.error "insufficient point balance", db)
            else
              let booking : Booking :=
                { id := db.nextId, userId := userId, hotelId := hotelId,
                  roomId := roomId, checkIn := startDate, checkOut := endDate,
                  pointCost := pointCost, status := "confirmed" }
              let db1 := insertBooking { db with nextId := db.nextId + 1 } booking
              let db2 := updatePointBalance db1 userId (-pointCost)
              let tx : PointTransaction :=
                { id := db2.nextId, userId := userId, amount := -pointCost,
                  type := "booking_deduction", reference := booking.id }
              (.ok booking, createPointTransaction { db2 with nextId := db2.nextId + 1 } tx)

/-- `bookingService.CancelBooking`: owner-or-admin authorization, rejects
already-cancelled/completed bookings and cancellations within 24 hours of
check-in, then sets the status to cancelled, credits the point cost back
and appends a `booking_refund` transaction. -/
def cancelBooking (db : DB) (now : Nat) (id userId : ObjectId) :
    Except String Unit × DB :=
  match findBooking db id with
  | none => (.error "booking not found", db)
  | some booking =>
    let authorized : Bool :=
      if booking.userId == userId then true
      else
        match findUser db userId with
        | none => false
        | some u => u.role == "admin"
    if !authorized then (.error "unauthorized to cancel this booking", db)
    else if booking.status == "cancelled" then (.error "booking already cancelled", db)
    else if booking.status == "completed" then (.error "booking already completed", db)
    else if (booking.checkIn : Int) - (now : Int) < (minutesPerDay : Int) then
      (.error "cannot cancel booking within 24 hours of check-in", db)
    else
      match updateStatus db.bookings id "cancelled" with
      | .error e => (.error e, db)
      | .ok bookings1 =>
        let db1 := updatePointBalance { db with bookings := bookings1 }
          booking.userId booking.pointCost
        let tx : PointTransaction :=
          { id := db1.nextId, userId := booking.userId, amount := booking.pointCost,
            type := "booking_refund", reference := booking.id }
        (.ok (), createPointTransaction { db1 with nextId := db1.nextId + 1 } tx)

/-- The final `bookingRepo.UpdateStatus` step of
`bookingService.UpdateBookingStatus`. -/
def finishStatusUpdate (db : DB) (id : ObjectId) (status : String) :
    Except String Unit × DB :=
  match updateStatus db.bookings id status with
  | .error e => (.error e, db)
  | .ok bookings1 => (.ok (), { db with bookings := bookings1 })

/-- `bookingService.UpdateBookingStatus`: validates the status string,
re-debits (after a balance check) when leaving `cancelled`, credits a
refund when entering `cancelled` from a non-cancelled state, otherwise
touches no ledger state, and finally persists the new status. -/
def updateBookingStatus (db : DB) (id : ObjectId) (status : String) :
    Except String Unit × DB :=
  if status != "pending" && status != "confirmed" &&
      status != "completed" && status != "cancelled" then
    (.error "invalid booking status", db)
  else
    match findBooking db id with
    | none => (.error "booking not found", db)
    | some booking =>
      if booking.status == "cancelled" && status != "cancelled" then
        match findUser db booking.userId with
        | none => (.error "user not found", db)
        | some user =>
          if user.pointBalance < booking.pointCost then
            (.error "insufficient point balance to reactivate booking", db)
          else
            let db1 := updatePointBalance db booking.userId (-booking.pointCost)
            let tx : PointTransaction :=
              { id := db1.nextId, userId := booking.userId,
                amount := -booking.pointCost, type := "booking_reactivation",
                reference := booking.id }
            finishStatusUpdate (createPointTransaction { db1 with nextId := db1.nextId + 1 } tx)
              id status
      else if booking.status != "cancelled" && status == "cancelled" then
        let db1 := updatePointBalance db booking.userId booking.pointCost
        let tx : PointTransaction :=
          { id := db1.nextId, userId := booking.userId,
            amount := booking.pointCost, type := "booking_refund",
            reference := booking.id }
        finishStatusUpdate (createPointTransaction { db1 with nextId := db1.nextId + 1 } tx)
          id status
      else
        finishStatusUpdate db id status

/-- The per-day loop of `bookingService.checkRoomAvailabilityForUser`
(`for d := checkIn; d.Before(checkOut); d = d.AddDate(0, 0, 1)`), as a
recursion on the number of remaining iterations: each visited day looks
for the first availability record of that day; a day blocks the stay when
its record has `available = false`, or has a non-empty allowed-user list
not containing the user. -/
def availLoop (avails : List RoomAvailability) (userId : ObjectId)
    (d : Nat) : Nat → Bool
  | 0 => true
  | n + 1 =>
    match avails.find? (fun a => isSameDay a.date d) with
    | none => availLoop avails userId (d + minutesPerDay) n
    | some a =>
      if !a.available then false
      else if a.userIds.length > 0 && !(a.userIds.contains userId) then false
      else availLoop avails userId (d + minutesPerDay) n

/-- Number of iterations of a Go loop running
`for d := checkIn; d.Before(checkOut); d = d.AddDate(0, 0, 1)`:
the count of `k` with `checkIn + 1440 * k < checkOut`. -/
def loopDays (checkIn checkOut : Nat) : Nat :=
  (checkOut - checkIn + (minutesPerDay - 1)) / minutesPerDay

/-- `bookingService.checkRoomAvailabilityForUser`: the booking-overlap
check, then (when any availability records exist in range) the per-day
override walk. -/
def checkRoomAvailabilityForUser (db : DB) (roomId userId : ObjectId)
    (checkIn checkOut : Nat) : Bool :=
  if !(checkRoomAvailability db roomId checkIn checkOut) then false
  else
    let avails := findRoomAvailabilityByDateRange db roomId checkIn checkOut
    if avails.length == 0 then true
    else availLoop avails userId checkIn (loopDays checkIn checkOut)

/-- The ledger read `pointService.GetPointBalance` (0 when the user is
absent, used only to phrase balance statements). -/
def balanceOf (db : DB) (userId : ObjectId) : Int :=
  match findUser db userId with
  | some u => u.pointBalance
  | none => 0

/-! ## Concrete states used by counterexamples and witnesses -/

/-- A regular user with 10 points. -/
def user1 : User := { id := 1, pointBalance := 10, role := "user" }

/-- A room of hotel 2. -/
def room3 : Room := { id := 3, hotelId := 2 }

/-- A confirmed booking of room 3 checking in on day 0 (stored 14:00) and
out on day 2 (stored 12:00). -/
def bookingDay0To2 : Booking :=
  { id := 4, userId := 1, hotelId := 2, roomId := 3,
    checkIn := 840, checkOut := 3600, pointCost := 2, status := "confirmed" }

/-- State with one hotel/room/user and the single booking
`bookingDay0To2`. -/
def dbBackToBack : DB :=
  { users := [user1], hotels := [2], rooms := [room3],
    bookings := [bookingDay0To2],
    dateRules := [], roomAvail := [], transactions := [], nextId := 5 }

/-- State with one hotel/room/user, no bookings, and one availability
record blocking room 3 on day 100 for everyone. -/
def dbBlockedDay : DB :=
  { users := [user1], hotels := [2], rooms := [room3], bookings := [],
    dateRules := [],
    roomAvail := [{ id := 4, roomId := 3, date := 144000, available := false,
                    userIds := [] }],
    transactions := [], nextId := 5 }

/-- State with a user owning a single point and no bookings. -/
def dbPoorUser : DB :=
  { users := [{ id := 1, pointBalance := 1, role := "user" }],
    hotels := [2], rooms := [room3], bookings := [],
    dateRules := [], roomAvail := [], transactions := [], nextId := 5 }

/-- Empty catalog state. -/
def dbEmpty : DB :=
  { users := [], hotels := [], rooms := [], bookings := [],
    dateRules := [], roomAvail := [], transactions := [], nextId := 1 }

/-! ## C1: per-date availability overrides and `createBooking` -/

/-- C1 counterexample: in `dbBlockedDay` an admin override blocks room 3
on day 100 for everyone (`available = false`), there are no bookings, and
the user books exactly day 100: the claim says `createBooking` must fail
with the room-unavailable error and change nothing, but it succeeds —
a confirmed booking is persisted, the balance drops from 10 to 9 and a
deduction transaction is appended — because `createBooking` runs only the
booking-overlap check; the per-date override walk lives in the helper
`checkRoomAvailabilityForUser` (which does report the room blocked) and
is never invoked. -/
theorem c1_overrideIgnored_counterexample :
    dbBlockedDay.roomAvail =
      [{ id := 4, roomId := 3, date := 144000, available := false, userIds := [] }] ∧
    dayOf (144000 : Nat) = 100 ∧ dayOf (145440 : Nat) = 101 ∧
    checkRoomAvailabilityForUser dbBlockedDay 3 1 144000 145440 = false ∧
    (createBooking dbBlockedDay 144000 1 2 3 144000 145440).1 =
      .ok { id := 5, userId := 1, hotelId := 2, roomId := 3,
            checkIn := 144840, checkOut := 146160, pointCost := 1,
            status := "confirmed" } ∧
    balanceOf (createBooking dbBlockedDay 144000 1 2 3 144000 145440).2 1 = 9 ∧
    (createBooking dbBlockedDay 144000 1 2 3 144000 145440).2.transactions =
      [{ id := 6, userId := 1, amount := -1, type := "booking_deduction",
         reference := 5 }] := by
  decide

/-- Stepping one day forward advances the calendar day by one. -/
theorem dayOf_add_day (t : Nat) : dayOf (t + minutesPerDay) = dayOf t + 1 := by
  simp only [dayOf, minutesPerDay]
  omega

/-- If some visited day's availability record (unique for its day) is
marked unavailable, the per-day walk reports the room blocked. -/
theorem availLoop_blocked (avails : List RoomAvailability) (userId : ObjectId)
    (a : RoomAvailability) (hmem : a ∈ avails) (hafalse : a.available = false)
    (huniq : ∀ b ∈ avails, dayOf b.date = dayOf a.date → b = a) :
    ∀ (j d n : Nat), dayOf a.date = dayOf d + j → j < n →
      availLoop avails userId d n = false := by
  intro j
  induction j with
  | zero =>
    intro d n hday hlt
    match n, hlt with
    | n + 1, _ =>
      rw [availLoop]
      rcases hfind : avails.find? (fun b => isSameDay b.date d) with _ | b
      · exfalso
        have := List.find?_eq_none.mp hfind a hmem
        apply this
        simp [isSameDay, hday]
      · have hb := List.find?_some hfind
        have hbmem := List.mem_of_find?_eq_some hfind
        have hbday : dayOf b.date = dayOf a.date := by
          simp only [isSameDay, beq_iff_eq] at hb
          omega
        rw [hfind]
        have hba : b = a := huniq b hbmem hbday
        subst hba
        simp [hafalse]
  | succ j ih =>
    intro d n hday hlt
    match n, hlt with
    | n + 1, hlt =>
      have hstep : dayOf a.date = dayOf (d + minutesPerDay) + j := by
        rw [dayOf_add_day]
        omega
      have hj : j < n := by omega
      rw [availLoop]
      rcases hfind : avails.find? (fun b => isSameDay b.date d) with _ | b
      · rw [hfind]
        exact ih (d + minutesPerDay) n hstep hj
      · rw [hfind]
        rcases hav : b.available with _ | _
        · simp [hav]
        · simp only [hav, Bool.not_true, Bool.false_eq_true, if_false]
          rcases hres : (decide (b.userIds.length > 0) && !(b.userIds.contains userId))
            with _ | _
          · simp only [hres, Bool.false_eq_true, if_false]
            exact ih (d + minutesPerDay) n hstep hj
          · simp [hres]

/-- C1 amended: the per-date override rule is implemented by the helper
`checkRoomAvailabilityForUser`, which reports the room blocked whenever
some calendar day of the half-open range `[checkIn, checkOut)` carries an
`available = false` record for the room; but `createBooking` never calls
this helper — it runs only the booking-overlap check, and (as the
counterexample shows) succeeds, persists the booking, debits the balance
and appends a transaction despite such an override. -/
theorem c1_overrideBlocksHelper (db : DB) (roomId userId : ObjectId)
    (checkIn checkOut : Nat) (a : RoomAvailability)
    (hmem : a ∈ db.roomAvail) (haroom : a.roomId = roomId)
    (hafalse : a.available = false)
    (huniq : ∀ b ∈ db.roomAvail, b.roomId = roomId →
      dayOf b.date = dayOf a.date → b = a)
    (hnci : startOfDay checkIn = checkIn) (hnco : startOfDay checkOut = checkOut)
    (hlo : dayOf checkIn ≤ dayOf a.date) (hhi : dayOf a.date < dayOf checkOut) :
    checkRoomAvailabilityForUser db roomId userId checkIn checkOut = false := by
  unfold checkRoomAvailabilityForUser
  by_cases hbase : checkRoomAvailability db roomId checkIn checkOut = true
  · simp only [hbase, Bool.not_true, Bool.false_eq_true, if_false]
    have hmem2 : a ∈ findRoomAvailabilityByDateRange db roomId checkIn checkOut := by
      unfold findRoomAvailabilityByDateRange
      rw [List.mem_filter]
      refine ⟨hmem, ?_⟩
      simp only [haroom, Bool.and_eq_true, decide_eq_true_eq, beq_self_eq_true,
        true_and]
      constructor
      · simp only [startOfDay, dayOf, minutesPerDay] at *
        omega
      · simp only [endOfDay, dayOf, minutesPerDay] at *
        omega
    have hlen : ((findRoomAvailabilityByDateRange db roomId checkIn checkOut).length
        == 0) = false := by
      have := List.ne_nil_of_mem hmem2
      simp only [beq_eq_false_iff_ne, ne_eq, List.length_eq_zero]
      exact this
    simp only [hlen, Bool.false_eq_true, if_false]
    apply availLoop_blocked _ userId a hmem2 hafalse
    · intro b hbmem hbday
      have hbfilter := List.mem_filter.mp hbmem
      refine huniq b hbfilter.1 ?_ hbday
      have := hbfilter.2
      simp only [Bool.and_eq_true, beq_iff_eq] at this
      exact this.1.1
    · show dayOf a.date = dayOf checkIn + (dayOf a.date - dayOf checkIn)
      omega
    · show dayOf a.date - dayOf checkIn < loopDays checkIn checkOut
      unfold loopDays
      simp only [dayOf, startOfDay, minutesPerDay] at *
      omega
  · simp only [Bool.not_eq_true] at hbase
    simp [hbase]

/-- C1 amended, witnessed on the day-100 block of `dbBlockedDay`: the
helper reports the room unavailable for a one-night stay on that day. -/
theorem c1_overrideBlocksHelper_witness :
    checkRoomAvailabilityForUser dbBlockedDay 3 7 144000 145440 = false :=
  c1_overrideBlocksHelper dbBlockedDay 3 7 144000 145440
    { id := 4, roomId := 3, date := 144000, available := false, userIds := [] }
    (by decide) (by decide) (by decide) (by decide) (by decide) (by decide)
    (by decide) (by decide)

/-! ## C2: back-to-back bookings -/

/-- C2 counterexample: `dbBackToBack` holds exactly one non-cancelled
booking of room 3, whose check-out calendar day (day 2) equals the new
request's check-in calendar day, and there are no availability overrides;
yet `CheckRoomAvailability` reports the room taken and `createBooking`
for days 2..4 fails with the room-unavailable error, because the stored
check-out instant (day 2, 12:00) lies after the midnight-normalized query
check-in (day 2, 00:00). -/
theorem c2_backToBack_counterexample :
    dbBackToBack.bookings = [bookingDay0To2] ∧
    bookingDay0To2.status = "confirmed" ∧
    dbBackToBack.roomAvail = [] ∧
    dayOf bookingDay0To2.checkOut = dayOf 2880 ∧
    checkRoomAvailability dbBackToBack 3 (startOfDay 2880) (startOfDay 5760) = false ∧
    createBooking dbBackToBack 0 1 2 3 2880 5760 =
      (.error "room is not available for the selected dates", dbBackToBack) := by
  decide

/-- C2 amended: the overlap query is strictly half-open on stored
instants, so whenever every non-cancelled booking of the room either
checks out at or before the queried check-in instant or checks in at or
after the queried check-out instant, `CheckRoomAvailability` reports the
room free; in particular an existing check-out instant exactly equal to
the new check-in instant is not an overlap.  (At calendar-day level this
fails: `createBooking` stores check-out at 12:00 while the availability
query uses midnight, so same-day back-to-back requests are rejected, as
the counterexample shows.) -/
theorem c2_halfOpen_instants (db : DB) (roomId : ObjectId) (checkIn checkOut : Nat)
    (h : ∀ b ∈ db.bookings, b.roomId = roomId → b.status ≠ "cancelled" →
      b.checkOut ≤ checkIn ∨ checkOut ≤ b.checkIn) :
    checkRoomAvailability db roomId checkIn checkOut = true := by
  unfold checkRoomAvailability
  simp only [beq_iff_eq, List.countP_eq_zero]
  intro b hb
  unfold overlapsQuery
  simp only [Bool.and_eq_true, decide_eq_true_eq, bne_iff_ne, beq_iff_eq, gt_iff_lt,
    not_and, and_imp]
  intro h1 h2 h3
  rcases h b hb h1 h2 with h4 | h4 <;> omega

/-- C2 amended, witnessed on a state whose sole booking's check-out
instant (3600) equals the new check-in instant. -/
theorem c2_halfOpen_instants_witness :
    checkRoomAvailability dbBackToBack 3 3600 5760 = true := by
  apply c2_halfOpen_instants
  decide

/-! ## C5: insufficient balance leaves the state unchanged -/

/-- C5: when the user's balance is strictly below the computed cost of
the stay, `createBooking` fails with the insufficient-balance error and
returns the state unchanged — no booking, no balance change, no
transaction. -/
theorem c5_insufficientBalance (db : DB) (now : Nat) (userId hotelId roomId : ObjectId)
    (checkIn checkOut : Nat) (user : User) (room : Room) (hid : ObjectId) (cost : Int)
    (hu : findUser db userId = some user)
    (hh : findHotel db hotelId = some hid)
    (hr : findRoom db roomId = some room)
    (hm : room.hotelId = hotelId)
    (hc : calculatePointCost db now roomId (startOfDay checkIn + 840)
      (startOfDay checkOut + 720) = .ok cost)
    (hb : user.pointBalance < cost) :
    createBooking db now userId hotelId roomId checkIn checkOut =
      (.error "insufficient point balance", db) := by
  unfold createBooking
  simp [hu, hh, hr, hm, hc, hb]

/-- C5 witnessed on Scenario D: a user with 1 point booking a 2-point
(two weekday nights) stay. -/
theorem c5_insufficientBalance_witness :
    createBooking dbPoorUser 144000 1 2 3 144000 146880 =
      (.error "insufficient point balance", dbPoorUser) := by
  exact c5_insufficientBalance dbPoorUser 144000 1 2 3 144000 146880
    { id := 1, pointBalance := 1, role := "user" } room3 2 2
    (by decide) (by decide) (by decide) (by decide) (by decide) (by decide)

/-! ## C8: the in-the-past guard -/

/-- C8 counterexample: at a call made on day 10 at 12:00 for a check-in
on day 9 (yesterday) at 10:00, `CalculatePointCost` does return the
"check-in date cannot be in the past" error, although the claim says a
check-in of yesterday's calendar date is never rejected: the guard
compares midnight of the check-in day against the instant `now − 24h`,
not against yesterday's calendar date. -/
theorem c8_pastGuard_counterexample :
    dayOf 13560 + 1 = dayOf 15120 ∧
    calculatePointCost dbEmpty 15120 3 13560 15840 =
      .error "check-in date cannot be in the past" := by
  decide

/-- C8 amended: given an in-order range, the "in the past" error is
returned exactly when midnight of the check-in day is strictly before the
instant `now − 24h`; consequently a check-in two or more calendar days in
the past is always rejected, a check-in of today or later is never
rejected, and a check-in of yesterday is rejected or not depending on the
time of day of the call. -/
theorem c8_pastGuard (db : DB) (now roomId checkIn checkOut : Nat)
    (horder : dayOf checkIn ≤ dayOf checkOut) :
    (calculatePointCost db now roomId checkIn checkOut =
        .error "check-in date cannot be in the past"
      ↔ (startOfDay checkIn : Int) < (now : Int) - (minutesPerDay : Int)) ∧
    (dayOf checkIn + 2 ≤ dayOf now →
      calculatePointCost db now roomId checkIn checkOut =
        .error "check-in date cannot be in the past") ∧
    (dayOf now ≤ dayOf checkIn →
      calculatePointCost db now roomId checkIn checkOut ≠
        .error "check-in date cannot be in the past") := by
  have hns : ¬ (startOfDay checkIn > startOfDay checkOut) := by
    simp only [startOfDay, dayOf, minutesPerDay] at *
    omega
  have hiff : calculatePointCost db now roomId checkIn checkOut =
      .error "check-in date cannot be in the past"
      ↔ (startOfDay checkIn : Int) < (now : Int) - (minutesPerDay : Int) := by
    unfold calculatePointCost
    rw [if_neg hns]
    by_cases hpast : (startOfDay checkIn : Int) <
        (now : Int) - (minutesPerDay : Int)
    · rw [if_pos hpast]
      simp [hpast]
    · rw [if_neg hpast]
      constructor
      · intro hcontra
        rcases hfind : findRoom db roomId with _ | room <;> rw [hfind] at hcontra
        · exact absurd (Except.error.inj hcontra) (by decide)
        · by_cases hav : checkRoomAvailability db roomId (startOfDay checkIn)
              (startOfDay checkOut) = true
          · rw [if_pos hav] at hcontra
            exact Except.noConfusion hcontra
          · rw [if_neg hav] at hcontra
            exact absurd (Except.error.inj hcontra) (by decide)
      · intro hcontra
        exact absurd hcontra hpast
  refine ⟨hiff, ?_, ?_⟩
  · intro h2
    rw [hiff]
    simp only [startOfDay, dayOf, minutesPerDay] at *
    omega
  · intro h2
    rw [Ne, hiff]
    simp only [startOfDay, dayOf, minutesPerDay] at *
    omega

/-! ## C4: per-day cost and half-open summation -/

/-- The calendar-day form of the rule-lookup predicate: the day-window
query of `GetPointCostForDate` matches exactly the rules sharing the
date's calendar day. -/
theorem ruleWindowMatch_eq (date : Nat) :
    ruleWindowMatch date = fun r => dayOf r.date == dayOf date := by
  funext r
  rw [Bool.eq_iff_iff]
  simp only [ruleWindowMatch, Bool.and_eq_true, decide_eq_true_eq, beq_iff_eq,
    startOfDay, endOfDay, dayOf, minutesPerDay]
  omega

/-- The summation loop equals a `Finset.range` sum of the per-day
costs. -/
theorem calcLoop_eq_sum (rules : List DateRule) (d n : Nat) :
    calcLoop rules d n =
      ∑ i ∈ Finset.range n, getPointCostForDate rules (d + minutesPerDay * i) := by
  induction n generalizing d with
  | zero => simp [calcLoop]
  | succ n ih =>
    rw [calcLoop, ih, Finset.sum_range_succ']
    have harg : ∀ i : Nat, d + minutesPerDay * (i + 1) =
        d + minutesPerDay + minutesPerDay * i := by
      intro i
      ring
    simp only [harg, Nat.mul_zero, Nat.add_zero]
    exact (add_comm _ _)

/-- C4: whenever `CalculatePointCost` succeeds, (a) the per-day cost is
the matching rule's `pointCost` when a rule exists for the day's calendar
date, (b) otherwise 2 on a Saturday/Sunday and 1 on a weekday, and
(c) the returned total is the sum of these per-day costs over the
half-open day range (check-in day included, check-out day excluded), so a
1-night stay costs exactly the check-in day's rate. -/
theorem c4_costPerDay (db : DB) (now roomId checkIn checkOut : Nat) (total : Int)
    (hc : calculatePointCost db now roomId checkIn checkOut = .ok total) :
    (∀ d r, db.dateRules.find? (fun q => dayOf q.date == dayOf d) = some r →
      getPointCostForDate db.dateRules d = r.pointCost) ∧
    (∀ d, db.dateRules.find? (fun q => dayOf q.date == dayOf d) = none →
      getPointCostForDate db.dateRules d = if isWeekend d then 2 else 1) ∧
    total = ∑ i ∈ Finset.range (dayOf checkOut - dayOf checkIn),
      getPointCostForDate db.dateRules (startOfDay checkIn + minutesPerDay * i) ∧
    (dayOf checkOut = dayOf checkIn + 1 →
      total = getPointCostForDate db.dateRules (startOfDay checkIn)) := by
  have key : total =
      calcLoop db.dateRules (startOfDay checkIn) (dayOf checkOut - dayOf checkIn) := by
    simp only [calculatePointCost] at hc
    repeat' split at hc
    all_goals
      first
        | exact Except.noConfusion hc
        | exact (Except.ok.inj hc).symm
  have hsum : total = ∑ i ∈ Finset.range (dayOf checkOut - dayOf checkIn),
      getPointCostForDate db.dateRules (startOfDay checkIn + minutesPerDay * i) := by
    rw [key, calcLoop_eq_sum]
  refine ⟨?_, ?_, hsum, ?_⟩
  · intro d r h
    unfold getPointCostForDate
    rw [ruleWindowMatch_eq, h]
  · intro d h
    unfold getPointCostForDate
    rw [ruleWindowMatch_eq, h]
  · intro h1
    rw [hsum, h1]
    simp

/-- State with a cost-3 holiday rule on day 101. -/
def dbHoliday : DB :=
  { users := [user1], hotels := [2], rooms := [room3], bookings := [],
    dateRules := [{ id := 7, date := 145440, type := "holiday", pointCost := 3,
                    name := "Christmas" }],
    roomAvail := [], transactions := [], nextId := 8 }

/-- C4 witnessed on a 2-night stay over days 100 (regular, 1 point) and
101 (holiday rule, 3 points): the returned total 4 is the half-open
per-day sum. -/
theorem c4_costPerDay_witness :
    (4 : Int) = ∑ i ∈ Finset.range (dayOf 146880 - dayOf 144000),
      getPointCostForDate dbHoliday.dateRules (startOfDay 144000 + minutesPerDay * i) :=
  (c4_costPerDay dbHoliday 144000 3 144000 146880 4 (by decide)).2.2.1

/-! ## C10: zero-night bookings -/

/-- Adding less than a day to a midnight keeps the midnight. -/
theorem startOfDay_addSmall (t k : Nat) (hk : k < minutesPerDay) :
    startOfDay (startOfDay t + k) = startOfDay t := by
  simp only [startOfDay, minutesPerDay] at *
  omega

/-- Adding less than a day to a midnight keeps the calendar day. -/
theorem dayOf_addSmall (t k : Nat) (hk : k < minutesPerDay) :
    dayOf (startOfDay t + k) = dayOf t := by
  simp only [dayOf, startOfDay, minutesPerDay] at *
  omega

/-- A balance update rewrites the user lookup pointwise. -/
theorem findUser_updatePointBalance (db : DB) (uid : ObjectId) (c : Int)
    (target : ObjectId) :
    findUser (updatePointBalance db uid c) target =
      (findUser db target).map
        (fun u => if u.id == uid then { u with pointBalance := u.pointBalance + c }
          else u) := by
  unfold findUser updatePointBalance
  rw [List.find?_map]
  congr 1
  congr 1
  funext u
  by_cases h : u.id == uid <;> simp [h, Function.comp]

/-- A found user's balance. -/
theorem balanceOf_found (db : DB) (uid : ObjectId) (user : User)
    (hu : findUser db uid = some user) : balanceOf db uid = user.pointBalance := by
  unfold balanceOf
  rw [hu]

/-- A state whose user list is a base list with one balance update
mapped over it reads back the updated balance. -/
theorem balanceOf_mapUsers (users : List User) (hotels : List ObjectId)
    (rooms : List Room) (bookings : List Booking) (dateRules : List DateRule)
    (roomAvail : List RoomAvailability) (transactions : List PointTransaction)
    (nextId : ObjectId) (uid : ObjectId) (c : Int) (user : User)
    (hu : users.find? (fun u => u.id == uid) = some user) :
    balanceOf
      { users := users.map (fun u =>
          if u.id == uid then { u with pointBalance := u.pointBalance + c } else u),
        hotels := hotels, rooms := rooms, bookings := bookings,
        dateRules := dateRules, roomAvail := roomAvail,
        transactions := transactions, nextId := nextId } uid =
      user.pointBalance + c := by
  unfold balanceOf findUser
  rw [List.find?_map]
  have hpf : ((fun u : User => u.id == uid) ∘ fun u =>
      if u.id == uid then { u with pointBalance := u.pointBalance + c } else u)
      = fun u : User => u.id == uid := by
    funext u
    by_cases h : u.id == uid <;> simp [h, Function.comp]
  rw [hpf, hu]
  have huid := List.find?_some hu
  have hid : user.id = uid := by simpa using huid
  simp [hid]

/-- The success path of `createBooking`, computed into an explicit
result: the persisted confirmed booking, the debited users, the appended
booking and `booking_deduction` transaction, and two consumed fresh
ids. -/
theorem createBooking_ok (db : DB) (now : Nat) (userId hotelId roomId : ObjectId)
    (checkIn checkOut : Nat) (user : User) (room : Room) (hid : ObjectId) (cost : Int)
    (hu : findUser db userId = some user)
    (hh : findHotel db hotelId = some hid)
    (hr : findRoom db roomId = some room)
    (hm : room.hotelId = hotelId)
    (hc : calculatePointCost db now roomId (startOfDay checkIn + 840)
      (startOfDay checkOut + 720) = .ok cost)
    (hb : ¬ user.pointBalance < cost) :
    createBooking db now userId hotelId roomId checkIn checkOut =
      (.ok { id := db.nextId, userId := userId, hotelId := hotelId, roomId := roomId,
             checkIn := startOfDay checkIn + 840, checkOut := startOfDay checkOut + 720,
             pointCost := cost, status := "confirmed" },
       { users := db.users.map (fun u =>
           if u.id == userId then { u with pointBalance := u.pointBalance + -cost } else u),
         hotels := db.hotels, rooms := db.rooms,
         bookings := db.bookings ++
           [{ id := db.nextId, userId := userId, hotelId := hotelId, roomId := roomId,
              checkIn := startOfDay checkIn + 840, checkOut := startOfDay checkOut + 720,
              pointCost := cost, status := "confirmed" }],
         dateRules := db.dateRules, roomAvail := db.roomAvail,
         transactions := db.transactions ++
           [{ id := db.nextId + 1, userId := userId, amount := -cost,
              type := "booking_deduction", reference := db.nextId }],
         nextId := db.nextId + 1 + 1 }) := by
  simp only [createBooking, hu, hh, hr, hc]
  rw [hm]
  simp only [bne_self_eq_false, Bool.false_eq_true, if_false]
  rw [if_neg hb]
  rfl

/-- A zero-night range (equal calendar days) passes validation and costs
0: the summation loop runs zero iterations. -/
theorem calc_zeroNight (db : DB) (now roomId checkIn checkOut : Nat) (room : Room)
    (hday : dayOf checkIn = dayOf checkOut)
    (hpast : ¬ ((startOfDay checkIn : Int) < (now : Int) - (minutesPerDay : Int)))
    (hr : findRoom db roomId = some room)
    (hav : checkRoomAvailability db roomId (startOfDay checkIn)
      (startOfDay checkOut) = true) :
    calculatePointCost db now roomId checkIn checkOut = .ok 0 := by
  have heq : startOfDay checkIn = startOfDay checkOut := by
    simp only [startOfDay, dayOf, minutesPerDay] at *
    omega
  simp only [calculatePointCost]
  rw [if_neg (by rw [heq]; exact lt_irrefl _), if_neg hpast, hr, if_pos hav]
  rw [hday, Nat.sub_self]
  rfl

/-- C10: a request whose check-in and check-out share a calendar day is
accepted: `CalculatePointCost` returns 0, and `createBooking` persists a
confirmed booking of cost 0, leaves the user's balance unchanged (a debit
of 0) and appends a `booking_deduction` transaction of amount 0. -/
theorem c10_zeroNight (db : DB) (now : Nat) (userId hotelId roomId : ObjectId)
    (checkIn checkOut : Nat) (user : User) (room : Room) (hid : ObjectId)
    (hday : dayOf checkIn = dayOf checkOut)
    (hu : findUser db userId = some user)
    (hb0 : 0 ≤ user.pointBalance)
    (hh : findHotel db hotelId = some hid)
    (hr : findRoom db roomId = some room)
    (hm : room.hotelId = hotelId)
    (hpast : ¬ ((startOfDay checkIn : Int) < (now : Int) - (minutesPerDay : Int)))
    (hav : checkRoomAvailability db roomId (startOfDay checkIn)
      (startOfDay checkOut) = true) :
    calculatePointCost db now roomId checkIn checkOut = .ok 0 ∧
    ∃ db1, createBooking db now userId hotelId roomId checkIn checkOut =
        (.ok { id := db.nextId, userId := userId, hotelId := hotelId, roomId := roomId,
               checkIn := startOfDay checkIn + 840, checkOut := startOfDay checkOut + 720,
               pointCost := 0, status := "confirmed" }, db1) ∧
      balanceOf db1 userId = balanceOf db userId ∧
      db1.transactions = db.transactions ++
        [{ id := db.nextId + 1, userId := userId, amount := 0,
           type := "booking_deduction", reference := db.nextId }] := by
  have hdayI : dayOf (startOfDay checkIn + 840) = dayOf (startOfDay checkOut + 720) := by
    rw [dayOf_addSmall _ _ (by decide), dayOf_addSmall _ _ (by decide)]
    exact hday
  have hpastI : ¬ ((startOfDay (startOfDay checkIn + 840) : Int) <
      (now : Int) - (minutesPerDay : Int)) := by
    rw [startOfDay_addSmall _ _ (by decide)]
    exact hpast
  have havI : checkRoomAvailability db roomId (startOfDay (startOfDay checkIn + 840))
      (startOfDay (startOfDay checkOut + 720)) = true := by
    rw [startOfDay_addSmall _ _ (by decide), startOfDay_addSmall _ _ (by decide)]
    exact hav
  have hcalc2 := calc_zeroNight db now roomId (startOfDay checkIn + 840)
    (startOfDay checkOut + 720) room hdayI hpastI hr havI
  refine ⟨calc_zeroNight db now roomId checkIn checkOut room hday hpast hr hav, ?_⟩
  rw [createBooking_ok db now userId hotelId roomId checkIn checkOut user room hid 0
    hu hh hr hm hcalc2 (not_lt.mpr hb0)]
  refine ⟨_, rfl, ?_, ?_⟩
  · rw [balanceOf_mapUsers db.users db.hotels db.rooms _ db.dateRules db.roomAvail _ _
      userId (-0) user hu, balanceOf_found db userId user hu]
    simp
  · simp

/-! ## C3: create-then-cancel round trip -/

/-- Mapping a one-user balance update over a user list commutes with the
lookup of that user. -/
theorem find?_updateUser (users : List User) (uid : ObjectId) (c : Int) (user : User)
    (hu : users.find? (fun u => u.id == uid) = some user) :
    (users.map (fun u =>
        if u.id == uid then { u with pointBalance := u.pointBalance + c } else u)).find?
        (fun u => u.id == uid) =
      some { user with pointBalance := user.pointBalance + c } := by
  rw [List.find?_map]
  have hpf : ((fun u : User => u.id == uid) ∘ fun u =>
      if u.id == uid then { u with pointBalance := u.pointBalance + c } else u)
      = fun u : User => u.id == uid := by
    funext u
    by_cases h : u.id == uid <;> simp [h, Function.comp]
  rw [hpf, hu]
  have hid : user.id = uid := by simpa using List.find?_some hu
  simp [hid]

/-- `UpdateStatus` with the literal status `cancelled` always succeeds
and rewrites the matching booking's status. -/
theorem updateStatus_cancelled (bookings : List Booking) (id : ObjectId) :
    updateStatus bookings id "cancelled" =
      .ok (bookings.map (fun b =>
        if b.id == id then { b with status := "cancelled" } else b)) := rfl

/-- The authorization test of `cancelBooking` evaluates to `true` for the
booking's owner and for any user holding the admin role. -/
theorem cancelAuth_true (db : DB) (uid : ObjectId) (bk : Booking)
    (hauth : bk.userId = uid ∨ ∃ a, findUser db uid = some a ∧ a.role = "admin") :
    (if bk.userId == uid then true
      else match findUser db uid with
        | none => false
        | some u => u.role == "admin") = true := by
  rcases hauth with howner | ⟨a, ha, hrole⟩
  · simp [howner]
  · by_cases howner : bk.userId == uid
    · simp [howner]
    · simp only [howner, Bool.false_eq_true, if_false, ha]
      simp [hrole]

/-- The success path of `cancelBooking` (owner or admin, cancellable
status, outside the 24-hour window), computed into an explicit result:
status set to cancelled, point cost credited back, one `booking_refund`
transaction appended. -/
theorem cancelBooking_ok (db : DB) (now : Nat) (id uid : ObjectId) (bk : Booking)
    (hfind : findBooking db id = some bk)
    (hauth : bk.userId = uid ∨
      ∃ a, findUser db uid = some a ∧ a.role = "admin")
    (h1 : bk.status ≠ "cancelled")
    (h2 : bk.status ≠ "completed")
    (htime : ¬ ((bk.checkIn : Int) - (now : Int) < (minutesPerDay : Int))) :
    cancelBooking db now id uid =
      (.ok (),
       { users := db.users.map (fun u =>
           if u.id == bk.userId then { u with pointBalance := u.pointBalance + bk.pointCost }
           else u),
         hotels := db.hotels, rooms := db.rooms,
         bookings := db.bookings.map (fun b =>
           if b.id == id then { b with status := "cancelled" } else b),
         dateRules := db.dateRules, roomAvail := db.roomAvail,
         transactions := db.transactions ++
           [{ id := db.nextId, userId := bk.userId, amount := bk.pointCost,
              type := "booking_refund", reference := bk.id }],
         nextId := db.nextId + 1 }) := by
  have hauthb := cancelAuth_true db uid bk hauth
  have hb1 : (bk.status == "cancelled") = false := by simpa using h1
  have hb2 : (bk.status == "completed") = false := by simpa using h2
  simp only [cancelBooking, hfind, hauthb, Bool.not_true, Bool.false_eq_true, if_false,
    updateStatus_cancelled, hb1, hb2]
  rw [if_neg htime]
  rfl

/-- C3: for a valid booking request whose check-in instant is more than
24 hours after `now`, `createBooking` followed by `cancelBooking` by the
owner restores the user's balance and extends the transaction history by
exactly one `booking_deduction` of the cost and one matching
`booking_refund`, both referencing the booking's id. -/
theorem c3_roundTrip (db : DB) (now : Nat) (userId hotelId roomId : ObjectId)
    (checkIn checkOut : Nat) (user : User) (room : Room) (hid : ObjectId) (cost : Int)
    (hu : findUser db userId = some user)
    (hh : findHotel db hotelId = some hid)
    (hr : findRoom db roomId = some room)
    (hm : room.hotelId = hotelId)
    (hc : calculatePointCost db now roomId (startOfDay checkIn + 840)
      (startOfDay checkOut + 720) = .ok cost)
    (hb : ¬ user.pointBalance < cost)
    (hfresh : ∀ b ∈ db.bookings, b.id ≠ db.nextId)
    (h24 : (minutesPerDay : Int) < ((startOfDay checkIn + 840 : Nat) : Int) - (now : Int)) :
    ∃ bk db1 db2,
      createBooking db now userId hotelId roomId checkIn checkOut = (.ok bk, db1) ∧
      bk.pointCost = cost ∧ bk.id = db.nextId ∧
      cancelBooking db1 now bk.id userId = (.ok (), db2) ∧
      balanceOf db2 userId = balanceOf db userId ∧
      db2.transactions = db.transactions ++
        [{ id := db.nextId + 1, userId := userId, amount := -cost,
           type := "booking_deduction", reference := db.nextId },
         { id := db.nextId + 1 + 1, userId := userId, amount := cost,
           type := "booking_refund", reference := db.nextId }] := by
  rw [createBooking_ok db now userId hotelId roomId checkIn checkOut user room hid cost
    hu hh hr hm hc hb]
  have hfind2 : db.bookings.find? (fun b => b.id == db.nextId) = none := by
    rw [List.find?_eq_none]
    intro b hbmem
    simpa using hfresh b hbmem
  have hf : findBooking
      { users := db.users.map (fun u =>
          if u.id == userId then { u with pointBalance := u.pointBalance + -cost } else u),
        hotels := db.hotels, rooms := db.rooms,
        bookings := db.bookings ++
          [{ id := db.nextId, userId := userId, hotelId := hotelId, roomId := roomId,
             checkIn := startOfDay checkIn + 840, checkOut := startOfDay checkOut + 720,
             pointCost := cost, status := "confirmed" }],
        dateRules := db.dateRules, roomAvail := db.roomAvail,
        transactions := db.transactions ++
          [{ id := db.nextId + 1, userId := userId, amount := -cost,
             type := "booking_deduction", reference := db.nextId }],
        nextId := db.nextId + 1 + 1 } db.nextId =
      some { id := db.nextId, userId := userId, hotelId := hotelId, roomId := roomId,
             checkIn := startOfDay checkIn + 840, checkOut := startOfDay checkOut + 720,
             pointCost := cost, status := "confirmed" } := by
    unfold findBooking
    show (db.bookings ++ [_]).find? _ = _
    rw [List.find?_append, hfind2]
    simp
  have ht : ¬ (((startOfDay checkIn + 840 : Nat) : Int) - (now : Int) <
      (minutesPerDay : Int)) := by
    omega
  have hs1 : ("confirmed" : String) ≠ "cancelled" := by decide
  have hs2 : ("confirmed" : String) ≠ "completed" := by decide
  have hcancel := cancelBooking_ok _ now db.nextId userId
    { id := db.nextId, userId := userId, hotelId := hotelId, roomId := roomId,
      checkIn := startOfDay checkIn + 840, checkOut := startOfDay checkOut + 720,
      pointCost := cost, status := "confirmed" }
    hf (Or.inl rfl) hs1 hs2 ht
  refine ⟨_, _, _, rfl, rfl, rfl, hcancel, ?_, ?_⟩
  · rw [balanceOf_mapUsers _ _ _ _ _ _ _ _ userId cost
      { user with pointBalance := user.pointBalance + -cost }
      (find?_updateUser db.users userId (-cost) user hu)]
    rw [balanceOf_found db userId user hu]
    simp
  · simp

/-- C3 witnessed: book two weekday nights (days 100-101) for 2 points at
`now` = day 99 noon, then cancel; the balance returns to 10 and the
ledger gains the matching debit/refund pair. -/
theorem c3_roundTrip_witness :
    ∃ bk db1 db2,
      createBooking dbBlockedDay 142560 1 2 3 144000 146880 = (.ok bk, db1) ∧
      bk.pointCost = 2 ∧ bk.id = dbBlockedDay.nextId ∧
      cancelBooking db1 142560 bk.id 1 = (.ok (), db2) ∧
      balanceOf db2 1 = balanceOf dbBlockedDay 1 ∧
      db2.transactions = dbBlockedDay.transactions ++
        [{ id := dbBlockedDay.nextId + 1, userId := 1, amount := -2,
           type := "booking_deduction", reference := dbBlockedDay.nextId },
         { id := dbBlockedDay.nextId + 1 + 1, userId := 1, amount := 2,
           type := "booking_refund", reference := dbBlockedDay.nextId }] :=
  c3_roundTrip dbBlockedDay 142560 1 2 3 144000 146880 user1 room3 2 2
    (by decide) (by decide) (by decide) (by decide) (by decide) (by decide)
    (by decide) (by decide)

/-! ## C6: the 24-hour cancellation window -/

/-- Mapping a status rewrite over a booking list commutes with the lookup
of the rewritten booking. -/
theorem find?_updateBookingStatus (bookings : List Booking) (id : ObjectId)
    (status : String) (bk : Booking)
    (hfind : bookings.find? (fun b => b.id == id) = some bk) :
    (bookings.map (fun b =>
        if b.id == id then { b with status := status } else b)).find?
        (fun b => b.id == id) =
      some { bk with status := status } := by
  rw [List.find?_map]
  have hpf : ((fun b : Booking => b.id == id) ∘ fun b =>
      if b.id == id then { b with status := status } else b)
      = fun b : Booking => b.id == id := by
    funext b
    by_cases h : b.id == id <;> simp [h, Function.comp]
  rw [hpf, hfind]
  have hbid : bk.id = id := by simpa using List.find?_some hfind
  simp [hbid]

/-- C6: for a non-cancelled, non-completed booking, an owner-or-admin
cancellation attempt fails with the cancel-window error (state unchanged)
when `checkIn - now < 24h`, and otherwise succeeds: the booking's status
becomes cancelled, the owner's balance is credited `pointCost`, and one
`booking_refund` transaction is appended. -/
theorem c6_cancelWindow (db : DB) (now : Nat) (id uid : ObjectId) (bk : Booking)
    (owner : User)
    (hfind : findBooking db id = some bk)
    (hauth : bk.userId = uid ∨ ∃ a, findUser db uid = some a ∧ a.role = "admin")
    (h1 : bk.status ≠ "cancelled")
    (h2 : bk.status ≠ "completed")
    (howner : findUser db bk.userId = some owner) :
    ((bk.checkIn : Int) - (now : Int) < (minutesPerDay : Int) →
      cancelBooking db now id uid =
        (.error "cannot cancel booking within 24 hours of check-in", db)) ∧
    (¬ ((bk.checkIn : Int) - (now : Int) < (minutesPerDay : Int)) →
      ∃ db1, cancelBooking db now id uid = (.ok (), db1) ∧
        findBooking db1 id = some { bk with status := "cancelled" } ∧
        balanceOf db1 bk.userId = balanceOf db bk.userId + bk.pointCost ∧
        db1.transactions = db.transactions ++
          [{ id := db.nextId, userId := bk.userId, amount := bk.pointCost,
             type := "booking_refund", reference := bk.id }]) := by
  have hauthb := cancelAuth_true db uid bk hauth
  have hb1 : (bk.status == "cancelled") = false := by simpa using h1
  have hb2 : (bk.status == "completed") = false := by simpa using h2
  constructor
  · intro htime
    simp only [cancelBooking, hfind, hauthb, Bool.not_true, Bool.false_eq_true, if_false,
      hb1, hb2]
    rw [if_pos htime]
  · intro htime
    rw [cancelBooking_ok db now id uid bk hfind hauth h1 h2 htime]
    refine ⟨_, rfl, ?_, ?_, ?_⟩
    · exact find?_updateBookingStatus db.bookings id "cancelled" bk hfind
    · rw [balanceOf_mapUsers _ _ _ _ _ _ _ _ bk.userId bk.pointCost owner howner,
        balanceOf_found db bk.userId owner howner]
    · rfl

/-- C6 witnessed: the owner attempts to cancel the day-0 booking at
`now = 0`, 14 hours before its 14:00 check-in; the window branch applies
(checkIn − now = 840 < 1440) and the call fails with the window error,
state unchanged. -/
theorem c6_cancelWindow_witness :
    ((bookingDay0To2.checkIn : Int) - ((0 : Nat) : Int) < (minutesPerDay : Int) →
      cancelBooking dbBackToBack 0 4 1 =
        (.error "cannot cancel booking within 24 hours of check-in", dbBackToBack)) ∧
    (¬ ((bookingDay0To2.checkIn : Int) - ((0 : Nat) : Int) < (minutesPerDay : Int)) →
      ∃ db1, cancelBooking dbBackToBack 0 4 1 = (.ok (), db1) ∧
        findBooking db1 4 = some { bookingDay0To2 with status := "cancelled" } ∧
        balanceOf db1 bookingDay0To2.userId =
          balanceOf dbBackToBack bookingDay0To2.userId + bookingDay0To2.pointCost ∧
        db1.transactions = dbBackToBack.transactions ++
          [{ id := dbBackToBack.nextId, userId := bookingDay0To2.userId,
             amount := bookingDay0To2.pointCost, type := "booking_refund",
             reference := bookingDay0To2.id }]) :=
  c6_cancelWindow dbBackToBack 0 4 1 bookingDay0To2 user1
    (by decide) (Or.inl rfl) (by decide) (by decide) (by decide)

/-! ## C7: ledger frame of `updateBookingStatus` -/

/-- C7: a valid status update where neither the booking's current status
nor the new status is `cancelled` succeeds, leaves every user (hence the
owner's balance) and the whole transaction history unchanged, and changes
nothing in the booking besides its status field. -/
theorem c7_statusFrame (db : DB) (id : ObjectId) (status : String) (bk : Booking)
    (hvalid : status = "pending" ∨ status = "confirmed" ∨ status = "completed")
    (hfind : findBooking db id = some bk)
    (hnc : bk.status ≠ "cancelled") :
    ∃ db1, updateBookingStatus db id status = (.ok (), db1) ∧
      db1.users = db.users ∧
      db1.transactions = db.transactions ∧
      findBooking db1 id = some { bk with status := status } := by
  have hvb : (status != "pending" && status != "confirmed" &&
      status != "completed" && status != "cancelled") = false := by
    rcases hvalid with h | h | h <;> subst h <;> decide
  have hsc : (status == "cancelled") = false := by
    rcases hvalid with h | h | h <;> subst h <;> decide
  have hcb : (bk.status == "cancelled") = false := by simpa using hnc
  simp only [updateBookingStatus, hvb, Bool.false_eq_true, if_false, hfind, hcb, hsc,
    Bool.false_and, Bool.and_false, finishStatusUpdate, updateStatus]
  exact ⟨_, rfl, rfl, rfl, find?_updateBookingStatus db.bookings id status bk hfind⟩

/-- C7 witnessed: the admin moves the confirmed day-0 booking to
`completed`; users, transactions and all non-status booking fields are
untouched. -/
theorem c7_statusFrame_witness :
    ∃ db1, updateBookingStatus dbBackToBack 4 "completed" = (.ok (), db1) ∧
      db1.users = dbBackToBack.users ∧
      db1.transactions = dbBackToBack.transactions ∧
      findBooking db1 4 = some { bookingDay0To2 with status := "completed" } :=
  c7_statusFrame dbBackToBack 4 "completed" bookingDay0To2
    (Or.inr (Or.inr rfl)) (by decide) (by decide)

/-! ## C9: upsert-by-date keeps at most one rule per calendar day -/

/-- Normalizing to midnight keeps the calendar day. -/
theorem dayOf_startOfDay (t : Nat) : dayOf (startOfDay t) = dayOf t := by
  simp only [dayOf, startOfDay, minutesPerDay]
  omega

/-- The one-day window query of `SetSpecialDate` selects exactly the
rules sharing the normalized date's calendar day. -/
theorem findDateRules_day (rules : List DateRule) (d : Nat) :
    findDateRules rules (startOfDay d) (endOfDay (startOfDay d)) =
      rules.filter (fun r => dayOf r.date == dayOf d) := by
  unfold findDateRules
  congr 1
  funext r
  rw [Bool.eq_iff_iff]
  simp only [Bool.and_eq_true, decide_eq_true_eq, beq_iff_eq, startOfDay, endOfDay,
    dayOf, minutesPerDay]
  omega

/-- In a list with pairwise-distinct calendar days, two members sharing a
day are the same rule. -/
theorem eq_of_pairwise_day {rules : List DateRule}
    (hp : rules.Pairwise (fun a b => dayOf a.date ≠ dayOf b.date))
    {a b : DateRule} (ha : a ∈ rules) (hb : b ∈ rules)
    (hab : dayOf a.date = dayOf b.date) : a = b := by
  induction rules with
  | nil => cases ha
  | cons x xs ih =>
    rcases List.mem_cons.mp ha with rfl | ha2
    · rcases List.mem_cons.mp hb with rfl | hb2
      · rfl
      · exact absurd hab ((List.pairwise_cons.mp hp).1 b hb2)
    · rcases List.mem_cons.mp hb with rfl | hb2
      · exact absurd hab.symm ((List.pairwise_cons.mp hp).1 a ha2)
      · exact ih (List.pairwise_cons.mp hp).2 ha2 hb2

/-- `UpdateDateRule` never touches ids or dates. -/
theorem updateDateRule_idDay (rules : List DateRule) (r2 : DateRule) :
    (updateDateRule rules r2).map (fun r => (r.id, dayOf r.date)) =
      rules.map (fun r => (r.id, dayOf r.date)) := by
  unfold updateDateRule
  rw [List.map_map]
  congr 1
  funext r
  by_cases h : r.id == r2.id <;> simp [h, Function.comp]

/-- `UpdateDateRule` preserves pairwise-distinct calendar days. -/
theorem updateDateRule_pairwise (rules : List DateRule) (r2 : DateRule)
    (hp : rules.Pairwise (fun a b => dayOf a.date ≠ dayOf b.date)) :
    (updateDateRule rules r2).Pairwise (fun a b => dayOf a.date ≠ dayOf b.date) := by
  unfold updateDateRule
  refine List.Pairwise.map _ ?_ hp
  intro a b hab
  have hda : (if a.id == r2.id then
      { a with type := r2.type, pointCost := r2.pointCost, name := r2.name }
      else a).date = a.date := by
    by_cases h : a.id == r2.id <;> simp [h]
  have hdb : (if b.id == r2.id then
      { b with type := r2.type, pointCost := r2.pointCost, name := r2.name }
      else b).date = b.date := by
    by_cases h : b.id == r2.id <;> simp [h]
  rw [hda, hdb]
  exact hab

/-- C9: starting from a state with at most one `DateRule` per calendar
day, a valid `SetSpecialDate` succeeds and preserves that invariant; if a
rule for the date already exists, the rule count and every rule's
(id, day) pair are unchanged and the same-day rule now carries the new
type/cost/name (update in place, id reused); if none exists, exactly one
new rule for that date is inserted. -/
theorem c9_upsertByDate (db : DB) (rule : DateRule)
    (hinv : db.dateRules.Pairwise (fun a b => dayOf a.date ≠ dayOf b.date))
    (hd : rule.date ≠ 0) (ht : rule.type ≠ "")
    (hc1 : 0 < rule.pointCost) (hc2 : rule.pointCost ≤ 3) :
    ∃ db1, setSpecialDate db rule = (.ok (), db1) ∧
      db1.dateRules.Pairwise (fun a b => dayOf a.date ≠ dayOf b.date) ∧
      ((∃ e ∈ db.dateRules, dayOf e.date = dayOf rule.date) →
        db1.dateRules.length = db.dateRules.length ∧
        db1.dateRules.map (fun r => (r.id, dayOf r.date)) =
          db.dateRules.map (fun r => (r.id, dayOf r.date)) ∧
        ∀ r ∈ db1.dateRules, dayOf r.date = dayOf rule.date →
          r.type = rule.type ∧ r.pointCost = rule.pointCost ∧ r.name = rule.name) ∧
      ((∀ e ∈ db.dateRules, dayOf e.date ≠ dayOf rule.date) →
        db1.dateRules.length = db.dateRules.length + 1 ∧
        db1.dateRules.countP (fun r => dayOf r.date == dayOf rule.date) = 1) := by
  have hval : (rule.date == 0 || rule.type == "" || decide (rule.pointCost ≤ 0) ||
      decide (rule.pointCost > 3)) = false := by
    simp only [Bool.or_eq_false_iff, beq_eq_false_iff_ne, ne_eq,
      decide_eq_false_iff_not, not_le, not_lt]
    exact ⟨⟨⟨hd, ht⟩, hc1⟩, by omega⟩
  rcases Bool.eq_false_or_eq_true (rule.id == 0) with hfr | hfr <;>
  · simp only [setSpecialDate, hval, Bool.false_eq_true, if_false, hfr, if_true]
    rw [findDateRules_day db.dateRules rule.date]
    rcases hflt : db.dateRules.filter (fun r => dayOf r.date == dayOf rule.date)
      with _ | ⟨e, rest⟩
    · have hnone : ∀ r ∈ db.dateRules, dayOf r.date ≠ dayOf rule.date := by
        intro r hrmem
        have := (List.filter_eq_nil_iff.mp hflt) r hrmem
        simpa using this
      rw [hflt]
      refine ⟨_, rfl, ?_, ?_, ?_⟩
      · simp only [createDateRule]
        rw [List.pairwise_append]
        refine ⟨hinv, List.pairwise_singleton _ _, ?_⟩
        intro a hamem b hbmem
        rw [List.mem_singleton.mp hbmem]
        simp only [dayOf_startOfDay]
        exact hnone a hamem
      · intro ⟨e, hemem, heday⟩
        exact absurd heday (hnone e hemem)
      · intro _
        have h0 : db.dateRules.countP
            (fun r => dayOf r.date == dayOf rule.date) = 0 := by
          rw [List.countP_eq_zero]
          intro r hrmem
          simpa using hnone r hrmem
        constructor
        · simp [createDateRule]
        · simp only [createDateRule, List.countP_append, h0]
          simp [List.countP_cons, dayOf_startOfDay]
    · have hef : e ∈ db.dateRules.filter (fun r => dayOf r.date == dayOf rule.date) := by
        rw [hflt]
        exact List.mem_cons_self e rest
      have hemem : e ∈ db.dateRules := (List.mem_filter.mp hef).1
      have heday : dayOf e.date = dayOf rule.date := by
        simpa using (List.mem_filter.mp hef).2
      rw [hflt]
      refine ⟨_, rfl, ?_, ?_, ?_⟩
      · exact updateDateRule_pairwise _ _ hinv
      · intro _
        refine ⟨by simp [updateDateRule], updateDateRule_idDay _ _, ?_⟩
        intro r hrmem hrday
        rcases List.mem_map.mp hrmem with ⟨r0, hr0mem, hr0eq⟩
        by_cases h0 : (r0.id == e.id) = true
        · rw [← hr0eq]
          simp [h0]
        · rw [← hr0eq] at hrday ⊢
          simp only [h0, Bool.false_eq_true, if_false] at hrday ⊢
          exact absurd (congrArg DateRule.id (eq_of_pairwise_day hinv hr0mem hemem
            (hrday.trans heday.symm))) (by simpa using h0)
      · intro hnone
        exact absurd heday (hnone e hemem)

/-- C9 witnessed: upserting a new rule for day 101 (already ruled in
`dbHoliday`) updates the existing rule in place. -/
theorem c9_upsertByDate_witness :
    ∃ db1, setSpecialDate dbHoliday
        { id := 0, date := 146040, type := "regular", pointCost := 1, name := "" } =
        (.ok (), db1) ∧
      db1.dateRules.Pairwise (fun a b => dayOf a.date ≠ dayOf b.date) ∧
      ((∃ e ∈ dbHoliday.dateRules, dayOf e.date = dayOf 146040) →
        db1.dateRules.length = dbHoliday.dateRules.length ∧
        db1.dateRules.map (fun r => (r.id, dayOf r.date)) =
          dbHoliday.dateRules.map (fun r => (r.id, dayOf r.date)) ∧
        ∀ r ∈ db1.dateRules, dayOf r.date = dayOf 146040 →
          r.type = "regular" ∧ r.pointCost = 1 ∧ r.name = "") ∧
      ((∀ e ∈ dbHoliday.dateRules, dayOf e.date ≠ dayOf 146040) →
        db1.dateRules.length = dbHoliday.dateRules.length + 1 ∧
        db1.dateRules.countP (fun r => dayOf r.date == dayOf 146040) = 1) :=
  c9_upsertByDate dbHoliday
    { id := 0, date := 146040, type := "regular", pointCost := 1, name := "" }
    (by decide) (by decide) (by decide) (by decide) (by decide)

/-- C10 witnessed on a same-day (day 100) request: cost 0, confirmed
booking, unchanged balance, one zero-amount deduction transaction. -/
theorem c10_zeroNight_witness :
    calculatePointCost dbHoliday 144000 3 144000 144000 = .ok 0 ∧
    ∃ db1, createBooking dbHoliday 144000 1 2 3 144000 144000 =
        (.ok { id := dbHoliday.nextId, userId := 1, hotelId := 2, roomId := 3,
               checkIn := startOfDay 144000 + 840, checkOut := startOfDay 144000 + 720,
               pointCost := 0, status := "confirmed" }, db1) ∧
      balanceOf db1 1 = balanceOf dbHoliday 1 ∧
      db1.transactions = dbHoliday.transactions ++
        [{ id := dbHoliday.nextId + 1, userId := 1, amount := 0,
           type := "booking_deduction", reference := dbHoliday.nextId }] :=
  c10_zeroNight dbHoliday 144000 1 2 3 144000 144000
    { id := 1, pointBalance := 10, role := "user" } room3 2
    (by decide) (by decide) (by decide) (by decide) (by decide) (by decide)
    (by decide) (by decide)

/-- C8 amended, witnessed at a check-in five days ahead of `now`. -/
theorem c8_pastGuard_witness :
    (calculatePointCost dbEmpty 0 3 7200 8640 =
        .error "check-in date cannot be in the past"
      ↔ (startOfDay 7200 : Int) < (0 : Int) - (minutesPerDay : Int)) ∧
    (dayOf 7200 + 2 ≤ dayOf 0 →
      calculatePointCost dbEmpty 0 3 7200 8640 =
        .error "check-in date cannot be in the past") ∧
    (dayOf 0 ≤ dayOf 7200 →
      calculatePointCost dbEmpty 0 3 7200 8640 ≠
        .error "check-in date cannot be in the past") :=
  c8_pastGuard dbEmpty 0 3 7200 8640 (by decide)

end HotelApp
